import Mathlib

/-!
Verification of `examples/service-worker/webpack.config.js`.

The configuration file is shallowly embedded: JavaScript values appearing in
the exported object literal become the inductive `Value`, Node's
`path.join` becomes `pathJoin`, and the exported factory function becomes
`moduleExports`.  The ambient `__dirname` of the module is passed
explicitly as `dirname`.
-/

/-- JavaScript values as they occur in the configuration object literal:
strings, regular-expression literals (carrying their pattern source),
arrays, plain objects, and plugin instances created with `new`. -/
inductive Value where
  | vStr (s : String)
  | vRegex (pat : String)
  | vArr (elems : List Value)
  | vObj (fields : List (String × Value))
  | vPlugin (ctor : String) (options : List (String × Value))

/-- Model of Node's `path.join dir rel` for the calls in the source: the
segments are joined with a single `/` separator (no `..`/`.` segments occur,
so no normalisation is exercised). -/
def pathJoin (dir rel : String) : String :=
  if dir = "" then rel
  else if dir.data.getLast? = some '/' then dir ++ rel
  else dir ++ "/" ++ rel

/-- Model of `new HtmlWebpackPlugin opts`. -/
def HtmlWebpackPlugin (opts : List (String × Value)) : Value :=
  .vPlugin "HtmlWebpackPlugin" opts

/-- The object literal returned by the arrow function in
`webpack.config.js`, line by line. -/
def webpackConfig (dirname : String) : Value :=
  .vObj [
    ("mode", .vStr "development"),
    ("entry", .vObj [
      ("main", .vStr (pathJoin dirname "src/index.ts")),
      ("sw", .vStr (pathJoin dirname "src/sw.ts"))]),
    ("target", .vArr [.vStr "webworker"]),
    ("output", .vObj [
      ("path", .vStr (pathJoin dirname "dist")),
      ("filename", .vStr "[name].js"),
      ("publicPath", .vStr "/")]),
    ("module", .vObj [
      ("rules", .vArr [
        .vObj [
          ("test", .vRegex "\\.tsx?$"),
          ("exclude", .vRegex "node_modules"),
          ("use", .vArr [.vObj [("loader", .vStr "ts-loader")]])]])]),
    ("plugins", .vArr [
      HtmlWebpackPlugin [
        ("template", .vStr "src/index.html"),
        ("filename", .vStr "index.html"),
        ("chunks", .vArr [.vStr "main"])]])]

/-- `module.exports`: the exported factory.  The arrow takes no parameters,
so any arguments the bundler supplies are ignored; the body is a single
`return` of the object literal, so evaluation always succeeds
(`Except.ok`) and never signals an error of its own. -/
def moduleExports (dirname : String) (_args : List Value) : Except String Value :=
  .ok (webpackConfig dirname)

/-- Evaluation of the module with an explicit external state `w`: the file
contains no assignment, I/O, or other effectful statement, so the state is
returned unchanged alongside the configuration. -/
def evalConfigModule {σ : Type} (dirname : String) (w : σ) : Value × σ :=
  (webpackConfig dirname, w)

/-- Field lookup on an object value. -/
def getField (v : Value) (key : String) : Option Value :=
  match v with
  | .vObj fields => fields.lookup key
  | _ => none

/-- Tests that a field is present and satisfies `p`. -/
def fieldIs (v : Value) (key : String) (p : Value → Bool) : Bool :=
  match getField v key with
  | some w => p w
  | none => false

/-- The value is a string. -/
def isStr : Value → Bool
  | .vStr _ => true
  | _ => false

/-- The value is an object all of whose field values are strings. -/
def isStrMap : Value → Bool
  | .vObj fs => fs.all (fun f => isStr f.2)
  | _ => false

/-- The value is an array of strings. -/
def isStrList : Value → Bool
  | .vArr xs => xs.all isStr
  | _ => false

/-- The value is a rule object. -/
def isRuleObj : Value → Bool
  | .vObj _ => true
  | _ => false

/-- The value is a plugin instance. -/
def isPluginInst : Value → Bool
  | .vPlugin _ _ => true
  | _ => false

/-- Schema required by the external bundler, read off the spec: `mode` a
string, `entry` a mapping from chunk name to path string, `target` a list
of strings, `output` an object with string fields `path`, `filename` and
`publicPath`, `module.rules` a list of rule objects, and `plugins` a list
of plugin instances. -/
def schemaOk (cfg : Value) : Bool :=
  fieldIs cfg "mode" isStr &&
  fieldIs cfg "entry" isStrMap &&
  fieldIs cfg "target" isStrList &&
  fieldIs cfg "output" (fun o =>
    fieldIs o "path" isStr && fieldIs o "filename" isStr &&
    fieldIs o "publicPath" isStr) &&
  fieldIs cfg "module" (fun m => fieldIs m "rules" (fun r =>
    match r with
    | .vArr xs => xs.all isRuleObj
    | _ => false)) &&
  fieldIs cfg "plugins" (fun p =>
    match p with
    | .vArr xs => xs.all isPluginInst
    | _ => false)

/-- Claim C1: the exported factory returns a configuration in which every
required key is present with the correct value type: `mode` a string,
`entry` a string-to-string mapping, `target` a list of strings, `output`
an object with string fields `path`, `filename`, `publicPath`,
`module.rules` a list of rule objects, and `plugins` a list of plugin
instances. -/
theorem c1_schema_ok (d : String) : schemaOk (webpackConfig d) = true := rfl

/-- Chunk names of the `entry` mapping. -/
def entryKeys (cfg : Value) : List String :=
  match getField cfg "entry" with
  | some (.vObj fs) => fs.map (fun f => f.1)
  | _ => []

/-- Source paths of the `entry` mapping. -/
def entryPaths (cfg : Value) : List String :=
  match getField cfg "entry" with
  | some (.vObj fs) => fs.filterMap (fun f =>
      match f.2 with
      | .vStr s => some s
      | _ => none)
  | _ => []

/-- Chunk names listed in the `chunks` option of each plugin instance. -/
def pluginChunks (cfg : Value) : List String :=
  match getField cfg "plugins" with
  | some (.vArr ps) =>
    (ps.map (fun p =>
      match p with
      | .vPlugin _ opts =>
        match opts.lookup "chunks" with
        | some (.vArr cs) => cs.filterMap (fun c =>
            match c with
            | .vStr s => some s
            | _ => none)
        | _ => []
      | _ => [])).flatten
  | _ => []

/-- The `filename` option of each plugin instance. -/
def pluginFilenames (cfg : Value) : List String :=
  match getField cfg "plugins" with
  | some (.vArr ps) => ps.filterMap (fun p =>
      match p with
      | .vPlugin _ opts =>
        match opts.lookup "filename" with
        | some (.vStr s) => some s
        | _ => none
      | _ => none)
  | _ => []

/-- The `template` option of each plugin instance. -/
def pluginTemplates (cfg : Value) : List String :=
  match getField cfg "plugins" with
  | some (.vArr ps) => ps.filterMap (fun p =>
      match p with
      | .vPlugin _ opts =>
        match opts.lookup "template" with
        | some (.vStr s) => some s
        | _ => none
      | _ => none)
  | _ => []

/-- Claim C2: every chunk name in the HTML-generation plugin's `chunks`
list is a key of the `entry` mapping; concretely the plugin lists
`["main"]` and the entry keys are `["main", "sw"]`. -/
theorem c2_chunks_subset_entry (d : String) :
    pluginChunks (webpackConfig d) = ["main"] ∧
    entryKeys (webpackConfig d) = ["main", "sw"] ∧
    (pluginChunks (webpackConfig d)).all
      (fun c => (entryKeys (webpackConfig d)).contains c) = true :=
  ⟨rfl, rfl, rfl⟩

/-- Claim C3: evaluation is side-effect-free and deterministic: with any
external state `w`, evaluating the module returns `w` unchanged, and two
evaluations with the same module directory (even against different
states) return structurally equal configurations. -/
theorem c3_pure_deterministic {σ : Type} (d : String) (w w' : σ) :
    (evalConfigModule d w).2 = w ∧
    (evalConfigModule d w).1 = (evalConfigModule d w').1 :=
  ⟨rfl, rfl⟩

/-- Claim C4: the exported factory is total and never signals an error: it
ignores its arguments and always returns `Except.ok` of a configuration
object. -/
theorem c4_total_no_error (d : String) (a a' : List Value) :
    moduleExports d a = Except.ok (webpackConfig d) ∧
    moduleExports d a = moduleExports d a' :=
  ⟨rfl, rfl⟩

/-- Claim C5: the `entry` field is a mapping with exactly two chunks:
`main` mapped to `path.join __dirname "src/index.ts"`, and `sw` mapped to
`path.join __dirname "src/sw.ts"`. -/
theorem c5_entry_exact (d : String) :
    getField (webpackConfig d) "entry" =
      some (.vObj [
        ("main", .vStr (pathJoin d "src/index.ts")),
        ("sw", .vStr (pathJoin d "src/sw.ts"))]) :=
  rfl

/-- Tests whether `sub` occurs as a contiguous run of `l`. -/
def containsAux (sub : List Char) : List Char → Bool
  | [] => sub.isEmpty
  | c :: rest => List.isPrefixOf sub (c :: rest) || containsAux sub rest

/-- Tests whether `sub` occurs as a contiguous substring of `s`. -/
def strContains (s sub : String) : Bool :=
  containsAux sub.data s.data

/-- Tests whether `suf` is a suffix of `s`. -/
def strEndsWith (s suf : String) : Bool :=
  List.isSuffixOf suf.data s.data

/-- Matching semantics of the two regular-expression literals appearing in
the source file (the regular-expression engine itself is external):
the literal `/\.tsx?$/` accepts exactly the strings ending in `.ts` or in
`.tsx`, and the literal `/node_modules/` accepts exactly the strings
containing `node_modules`. -/
def regexAccepts (pat s : String) : Bool :=
  if pat = "\\.tsx?$" then strEndsWith s ".ts" || strEndsWith s ".tsx"
  else if pat = "node_modules" then strContains s "node_modules"
  else false

/-- A string ends with `suf` exactly when it splits as some head followed
by `suf`. -/
theorem strEndsWith_iff (s suf : String) :
    strEndsWith s suf = true ↔ ∃ p, s = p ++ suf := by
  unfold strEndsWith
  rw [List.isSuffixOf_iff_suffix]
  constructor
  · rintro ⟨t, ht⟩
    exact ⟨⟨t⟩, String.ext (by rw [String.data_append]; exact ht.symm)⟩
  · rintro ⟨p, rfl⟩
    exact ⟨p.data, (String.data_append p suf).symm⟩

/-- A list starting with `sub` contains `sub`. -/
theorem containsAux_of_isPref (sub l : List Char)
    (h : List.isPrefixOf sub l = true) : containsAux sub l = true := by
  cases l with
  | nil =>
    cases sub with
    | nil => rfl
    | cons c t => simp [List.isPrefixOf] at h
  | cons c rest => simp [containsAux, h]

/-- Any list of the shape `l₁ ++ sub ++ l₂` contains `sub`. -/
theorem containsAux_append (sub l₁ l₂ : List Char) :
    containsAux sub ((l₁ ++ sub) ++ l₂) = true := by
  induction l₁ with
  | nil =>
    rw [List.nil_append]
    exact containsAux_of_isPref _ _
      (List.isPrefixOf_iff_prefix.mpr (List.prefix_append _ _))
  | cons c t ih =>
    rw [List.cons_append, List.cons_append]
    simp only [containsAux, Bool.or_eq_true]
    right
    exact ih

/-- Any string of the shape `p ++ m ++ q` contains `m`. -/
theorem strContains_append (p m q : String) :
    strContains (p ++ m ++ q) m = true := by
  unfold strContains
  rw [String.data_append, String.data_append]
  exact containsAux_append m.data p.data q.data

/-- The list of rule objects under `module.rules`. -/
def moduleRules (cfg : Value) : List Value :=
  match getField cfg "module" with
  | some m =>
    match getField m "rules" with
    | some (.vArr rs) => rs
    | _ => []
  | _ => []

/-- Claim C6: `module.rules` contains exactly one rule; its `test` pattern
accepts exactly the files ending in `.ts` or `.tsx`, its `exclude` pattern
accepts every path containing `node_modules`, and its loader chain is the
single loader `ts-loader`. -/
theorem c6_single_rule (d : String) :
    moduleRules (webpackConfig d) =
      [Value.vObj [
        ("test", .vRegex "\\.tsx?$"),
        ("exclude", .vRegex "node_modules"),
        ("use", .vArr [.vObj [("loader", .vStr "ts-loader")]])]] ∧
    (∀ s, regexAccepts "\\.tsx?$" s = true ↔
      (∃ p, s = p ++ ".ts") ∨ (∃ p, s = p ++ ".tsx")) ∧
    (∀ p q, regexAccepts "node_modules" (p ++ "node_modules" ++ q) = true) := by
  refine ⟨rfl, fun s => ?_, fun p q => ?_⟩
  · show (strEndsWith s ".ts" || strEndsWith s ".tsx") = true ↔ _
    rw [Bool.or_eq_true, strEndsWith_iff, strEndsWith_iff]
  · show strContains (p ++ "node_modules" ++ q) "node_modules" = true
    exact strContains_append p "node_modules" q

/-- The string under `output.path`. -/
def outputPath (cfg : Value) : Option String :=
  match getField cfg "output" with
  | some o =>
    match getField o "path" with
    | some (.vStr s) => some s
    | _ => none
  | _ => none

/-- The string under `output.filename`. -/
def outputFilename (cfg : Value) : Option String :=
  match getField cfg "output" with
  | some o =>
    match getField o "filename" with
    | some (.vStr s) => some s
    | _ => none
  | _ => none

/-- A string of length zero is the empty string. -/
theorem eq_empty_of_length_zero (s : String) (h : s.length = 0) : s = "" := by
  cases s with
  | mk data =>
    simp [String.length] at h
    simp [h]

/-- Joining with a non-empty last segment yields a non-empty path. -/
theorem pathJoin_ne_empty (d rel : String) (h : rel ≠ "") : pathJoin d rel ≠ "" := by
  have hlen : rel.length ≠ 0 := fun hz => h (eq_empty_of_length_zero rel hz)
  intro hc
  apply hlen
  have hz : (pathJoin d rel).length = 0 := by rw [hc]; rfl
  unfold pathJoin at hz
  split at hz
  · exact hz
  · split at hz
    · rw [String.length_append] at hz
      omega
    · rw [String.length_append, String.length_append] at hz
      omega

/-- Claim C7: `output.path` and `output.filename` are non-empty strings:
the path is `path.join __dirname "dist"`, which is non-empty, and the
filename is the non-empty pattern `[name].js`. -/
theorem c7_output_nonempty (d : String) :
    outputPath (webpackConfig d) = some (pathJoin d "dist") ∧
    pathJoin d "dist" ≠ "" ∧
    outputFilename (webpackConfig d) = some "[name].js" ∧
    ("[name].js" : String) ≠ "" :=
  ⟨rfl, pathJoin_ne_empty d "dist" (by decide), rfl, by decide⟩

/-- Modelled from the spec: the example application's source tree, which
is not among the provided sources (only the configuration file is), holds
the two entry source files; spec §8: `entry.main` and `entry.sw` resolve
to existing source files at build time. -/
def exampleSourceFiles : List String := ["src/index.ts", "src/sw.ts"]

/-- A full path resolves inside directory `d` when it is the join of `d`
with the relative path of one of the files present in the source tree. -/
def resolvesInDir (d full : String) (files : List String) : Bool :=
  files.any (fun rel => full == pathJoin d rel)

/-- Claim C8: the source-file paths assigned to `entry.main` and
`entry.sw` (the join of the configuration file's directory with
`src/index.ts` and `src/sw.ts`) resolve to existing source files. -/
theorem c8_entry_files_resolve (d : String) :
    (entryPaths (webpackConfig d)).all
      (fun p => resolvesInDir d p exampleSourceFiles) = true := by
  have h : entryPaths (webpackConfig d) =
      [pathJoin d "src/index.ts", pathJoin d "src/sw.ts"] := rfl
  rw [h]
  simp [resolvesInDir, exampleSourceFiles]

/-- Replaces each occurrence of the `[name]` placeholder in `chars` by
`name`; the fuel argument bounds the recursion and is instantiated with
the length of the pattern. -/
def substNameAux (name : List Char) : Nat → List Char → List Char
  | 0, l => l
  | _ + 1, [] => []
  | n + 1, c :: rest =>
    if List.isPrefixOf ['[', 'n', 'a', 'm', 'e', ']'] (c :: rest) then
      name ++ substNameAux name n (rest.drop 5)
    else c :: substNameAux name n rest

/-- Webpack's substitution of the `[name]` placeholder in the output
filename pattern by the chunk name (the substitution itself is performed
by the external bundler). -/
def applyNamePattern (pat name : String) : String :=
  ⟨substNameAux name.data pat.data.length pat.data⟩

/-- Claim C9: the entry chunk names are pairwise distinct, so under the
output filename pattern `[name].js` the chunks are emitted to the
distinct filenames `main.js` and `sw.js`, neither of which equals the
HTML-generation plugin's output filename `index.html`. -/
theorem c9_distinct_filenames (d : String) :
    (entryKeys (webpackConfig d)).Nodup ∧
    outputFilename (webpackConfig d) = some "[name].js" ∧
    (entryKeys (webpackConfig d)).map (applyNamePattern "[name].js") =
      ["main.js", "sw.js"] ∧
    ((entryKeys (webpackConfig d)).map (applyNamePattern "[name].js")).Nodup ∧
    pluginFilenames (webpackConfig d) = ["index.html"] ∧
    ∀ f ∈ (entryKeys (webpackConfig d)).map (applyNamePattern "[name].js"),
      f ≠ "index.html" := by
  have h : entryKeys (webpackConfig d) = ["main", "sw"] := rfl
  rw [h]
  exact ⟨by decide, rfl, by decide, by decide, rfl, by decide⟩

/-- A path is absolute when its first character is `/`. -/
def isAbsolutePath (s : String) : Bool :=
  s.data.headD ' ' == '/'

/-- Appending on the right preserves absoluteness. -/
theorem isAbsolutePath_append (a b : String) (h : isAbsolutePath a = true) :
    isAbsolutePath (a ++ b) = true := by
  unfold isAbsolutePath at h ⊢
  rw [String.data_append]
  cases ha : a.data with
  | nil => rw [ha] at h; exact absurd h (by decide)
  | cons c t =>
    rw [ha] at h
    exact h

/-- A prefix of a string carries its first character, so a string with an
absolute prefix is itself absolute. -/
theorem isAbsolutePath_of_prefixed (d s : String) (h : isAbsolutePath d = true)
    (hp : d.data <+: s.data) : isAbsolutePath s = true := by
  obtain ⟨t, ht⟩ := hp
  unfold isAbsolutePath at h ⊢
  rw [← ht]
  cases hd : d.data with
  | nil => rw [hd] at h; exact absurd h (by decide)
  | cons c cs =>
    rw [hd] at h
    exact h

/-- Joining onto an absolute directory yields an absolute path that has
the directory as a prefix. -/
theorem pathJoin_prefixed (d b : String) (h : isAbsolutePath d = true) :
    isAbsolutePath (pathJoin d b) = true ∧ d.data <+: (pathJoin d b).data := by
  have hne : d ≠ "" := by
    intro he
    rw [he] at h
    exact absurd h (by decide)
  unfold pathJoin
  rw [if_neg hne]
  split
  · exact ⟨isAbsolutePath_append d b h, by
      rw [String.data_append]; exact List.prefix_append _ _⟩
  · refine ⟨isAbsolutePath_append _ _ (isAbsolutePath_append d "/" h), ?_⟩
    rw [String.data_append, String.data_append, List.append_assoc]
    exact List.prefix_append _ _

/-- Claim C10: every filesystem path stored in the `entry` mapping and in
`output.path` is an absolute path prefixed by the configuration file's
directory, whereas the HTML-generation plugin's template path
`src/index.html` stays relative and is not prefixed by that directory. -/
theorem c10_paths_prefixed (d : String) (h : isAbsolutePath d = true) :
    (∀ p ∈ entryPaths (webpackConfig d) ++ (outputPath (webpackConfig d)).toList,
      isAbsolutePath p = true ∧ d.data <+: p.data) ∧
    (∀ t ∈ pluginTemplates (webpackConfig d),
      isAbsolutePath t = false ∧ ¬ d.data <+: t.data) := by
  have he : entryPaths (webpackConfig d) ++ (outputPath (webpackConfig d)).toList =
      [pathJoin d "src/index.ts", pathJoin d "src/sw.ts", pathJoin d "dist"] := rfl
  have htm : pluginTemplates (webpackConfig d) = ["src/index.html"] := rfl
  rw [he, htm]
  constructor
  · intro p hp
    simp only [List.mem_cons, List.not_mem_nil, or_false] at hp
    rcases hp with hp | hp | hp <;> rw [hp] <;> exact pathJoin_prefixed d _ h
  · intro t ht
    simp only [List.mem_cons, List.not_mem_nil, or_false] at ht
    rw [ht]
    refine ⟨by decide, fun hpre => ?_⟩
    have := isAbsolutePath_of_prefixed d "src/index.html" h hpre
    exact absurd this (by decide)

/-- Witness for claim C10 at the concrete directory `/repo/examples/sw`. -/
theorem c10_paths_prefixed_witness :
    isAbsolutePath "/repo/examples/sw" = true ∧
    ((∀ p ∈ entryPaths (webpackConfig "/repo/examples/sw") ++
        (outputPath (webpackConfig "/repo/examples/sw")).toList,
      isAbsolutePath p = true ∧ ("/repo/examples/sw" : String).data <+: p.data) ∧
    (∀ t ∈ pluginTemplates (webpackConfig "/repo/examples/sw"),
      isAbsolutePath t = false ∧
        ¬ ("/repo/examples/sw" : String).data <+: t.data)) :=
  ⟨by decide, c10_paths_prefixed "/repo/examples/sw" (by decide)⟩
